import Mathlib

/-!
Verification development for the continuum download / integrity-verification
core (`src/apps/web/src-tauri/src`).  The Rust source is shallowly embedded:
files are byte lists (`List Nat`, each byte `< 256`), the SHA-256 digest is
implemented directly (FIPS 180-4, as computed by the `sha2` crate the code
uses), the download registry is an association list with hash-map semantics,
and the effectful parts of the orchestrator (event emission, renames) are
modelled as explicit action traces.
-/

namespace Continuum

set_option maxRecDepth 4096

/-! ## List chunking

`chunksOf k l` splits `l` into consecutive chunks of size `k + 1` (the
successor encoding keeps every chunk nonempty); it models a read loop that
fills a fixed-size buffer of `k + 1` bytes until the stream is exhausted.
The recursion is structural on a fuel argument (one unit per chunk, so the
list's length is always enough fuel), which keeps the function reducible by
the kernel. -/

def chunksOfFuel (k : Nat) : Nat → List α → List (List α)
  | _, [] => []
  | 0, l => [l]
  | n + 1, x :: xs =>
      ((x :: xs).take (k + 1)) :: chunksOfFuel k n ((x :: xs).drop (k + 1))

def chunksOf (k : Nat) (l : List α) : List (List α) := chunksOfFuel k l.length l

/-! ## SHA-256 (FIPS 180-4)

Executable embedding of the digest the Rust code computes through the `sha2`
crate.  Words are `Nat` values kept below `2 ^ 32` by explicit reduction. -/

def w32 (n : Nat) : Nat := n % 4294967296

def rotr (k w : Nat) : Nat := w32 ((w >>> k) ||| (w <<< (32 - k)))

def smallSigma0 (x : Nat) : Nat := (rotr 7 x) ^^^ (rotr 18 x) ^^^ (x >>> 3)

def smallSigma1 (x : Nat) : Nat := (rotr 17 x) ^^^ (rotr 19 x) ^^^ (x >>> 10)

def bigSigma0 (x : Nat) : Nat := (rotr 2 x) ^^^ (rotr 13 x) ^^^ (rotr 22 x)

def bigSigma1 (x : Nat) : Nat := (rotr 6 x) ^^^ (rotr 11 x) ^^^ (rotr 25 x)

def chFun (x y z : Nat) : Nat := (x &&& y) ^^^ ((x ^^^ 4294967295) &&& z)

def majFun (x y z : Nat) : Nat := (x &&& y) ^^^ (x &&& z) ^^^ (y &&& z)

/-- The 64 round constants of FIPS 180-4 section 4.2.2 (decimal). -/
def shaK : List Nat :=
  [1116352408, 1899447441, 3049323471, 3921009573, 961987163,
   1508970993, 2453635748, 2870763221, 3624381080, 310598401,
   607225278, 1426881987, 1925078388, 2162078206, 2614888103,
   3248222580, 3835390401, 4022224774, 264347078, 604807628,
   770255983, 1249150122, 1555081692, 1996064986, 2554220882,
   2821834349, 2952996808, 3210313671, 3336571891, 3584528711,
   113926993, 338241895, 666307205, 773529912, 1294757372,
   1396182291, 1695183700, 1986661051, 2177026350, 2456956037,
   2730485921, 2820302411, 3259730800, 3345764771, 3516065817,
   3600352804, 4094571909, 275423344, 430227734, 506948616,
   659060556, 883997877, 958139571, 1322822218, 1537002063,
   1747873779, 1955562222, 2024104815, 2227730452, 2361852424,
   2428436474, 2756734187, 3204031479, 3329325298]

/-- The eight initial hash words of FIPS 180-4 section 5.3.3 (decimal). -/
def shaH0 : List Nat :=
  [1779033703, 3144134277, 1013904242, 2773480762,
   1359893119, 2600822924, 528734635, 1541459225]

/-- Big-endian 64-bit length field of the padding. -/
def lenBytes (n : Nat) : List Nat :=
  (List.range 8).map (fun i => (n >>> (8 * (7 - i))) % 256)

/-- FIPS 180-4 padding: a `0x80` byte, zeros to 56 mod 64, then the bit
length, big-endian. -/
def padMessage (msg : List Nat) : List Nat :=
  let z := (119 - (msg.length % 64)) % 64
  msg ++ 128 :: List.replicate z 0 ++ lenBytes (8 * msg.length)

/-- Big-endian 32-bit words from a byte list. -/
def bytesToWords : List Nat → List Nat
  | a :: b :: c :: d :: rest =>
      ((a <<< 24) ||| (b <<< 16) ||| (c <<< 8) ||| d) :: bytesToWords rest
  | _ => []

/-- Extend the 16 block words to the 64-entry message schedule. -/
def extendSchedule : Nat → List Nat → List Nat
  | 0, w => w
  | n + 1, w =>
      let m := w.length
      let nw := w32 (smallSigma1 (w.getD (m - 2) 0) + w.getD (m - 7) 0 +
        smallSigma0 (w.getD (m - 15) 0) + w.getD (m - 16) 0)
      extendSchedule n (w ++ [nw])

/-- One compression round on the eight-word working state. -/
def compressRound (st : List Nat) (kw : Nat × Nat) : List Nat :=
  match st with
  | [a, b, c, d, e, f, g, h] =>
      let t1 := w32 (h + bigSigma1 e + chFun e f g + kw.1 + kw.2)
      let t2 := w32 (bigSigma0 a + majFun a b c)
      [w32 (t1 + t2), a, b, c, w32 (d + t1), e, f, g]
  | other => other

def processBlock (h : List Nat) (block : List Nat) : List Nat :=
  let w := extendSchedule 48 (bytesToWords block)
  let st := (shaK.zip w).foldl compressRound h
  (h.zip st).map (fun p => w32 (p.1 + p.2))

/-- The eight 32-bit digest words of a byte message. -/
def sha256words (msg : List Nat) : List Nat :=
  (chunksOf 63 (padMessage msg)).foldl processBlock shaH0

def hexDigit (n : Nat) : Char := "0123456789abcdef".data.getD n '0'

def wordHex (w : Nat) : List Char :=
  (List.range 8).map (fun i => hexDigit ((w >>> (4 * (7 - i))) &&& 15))

/-- Lowercase hex SHA-256 digest of a byte list. -/
def sha256hex (msg : List Nat) : String :=
  ⟨(sha256words msg).foldr (fun w acc => wordHex w ++ acc) []⟩

/-- `compute_checksum` (verification/mod.rs): streams the file through a
SHA-256 hasher and formats the digest as lowercase hex.  The file is its byte
list. -/
def compute_checksum (content : List Nat) : String := sha256hex content

/-- ASCII bytes of a string, for the literal test vectors. -/
def asciiBytes (s : String) : List Nat := s.data.map Char.toNat

/-! ## Case folding

`str_to_lowercase` / `str_to_uppercase` model Rust's `to_lowercase` /
`to_uppercase` on the ASCII range (hash strings are hexadecimal, so the
ASCII table is the relevant fragment; the table is written out explicitly). -/

def lowerChar (c : Char) : Char :=
  if c = 'A' then 'a' else if c = 'B' then 'b' else if c = 'C' then 'c' else
  if c = 'D' then 'd' else if c = 'E' then 'e' else if c = 'F' then 'f' else
  if c = 'G' then 'g' else if c = 'H' then 'h' else if c = 'I' then 'i' else
  if c = 'J' then 'j' else if c = 'K' then 'k' else if c = 'L' then 'l' else
  if c = 'M' then 'm' else if c = 'N' then 'n' else if c = 'O' then 'o' else
  if c = 'P' then 'p' else if c = 'Q' then 'q' else if c = 'R' then 'r' else
  if c = 'S' then 's' else if c = 'T' then 't' else if c = 'U' then 'u' else
  if c = 'V' then 'v' else if c = 'W' then 'w' else if c = 'X' then 'x' else
  if c = 'Y' then 'y' else if c = 'Z' then 'z' else c

def upperChar (c : Char) : Char :=
  if c = 'a' then 'A' else if c = 'b' then 'B' else if c = 'c' then 'C' else
  if c = 'd' then 'D' else if c = 'e' then 'E' else if c = 'f' then 'F' else
  if c = 'g' then 'G' else if c = 'h' then 'H' else if c = 'i' then 'I' else
  if c = 'j' then 'J' else if c = 'k' then 'K' else if c = 'l' then 'L' else
  if c = 'm' then 'M' else if c = 'n' then 'N' else if c = 'o' then 'O' else
  if c = 'p' then 'P' else if c = 'q' then 'Q' else if c = 'r' then 'R' else
  if c = 's' then 'S' else if c = 't' then 'T' else if c = 'u' then 'U' else
  if c = 'v' then 'V' else if c = 'w' then 'W' else if c = 'x' then 'X' else
  if c = 'y' then 'Y' else if c = 'z' then 'Z' else c

def str_to_lowercase (s : String) : String := ⟨s.data.map lowerChar⟩

def str_to_uppercase (s : String) : String := ⟨s.data.map upperChar⟩

/-! ## Integrity Verifier (verification/mod.rs)

A readable file is `some content`; an unreadable one is `none` and turns
into an I/O-class `VerificationError` exactly as in the source. -/

structure VerificationError where
  kind : String
  message : String
deriving DecidableEq, Repr

structure VerificationResult where
  verified : Bool
  computed_hash : String
  expected_hash : String
  file_size : Nat
deriving DecidableEq, Repr

/-- Core of `verify_integrity` once the file was read: compare the computed
digest with the lowercased expected hash; a mismatch is a normal result. -/
def verify_integrity_ok (content : List Nat) (expected_hash : String) :
    VerificationResult :=
  let computed_hash := compute_checksum content
  let expected_lower := str_to_lowercase expected_hash
  { verified := computed_hash == expected_lower
    computed_hash := computed_hash
    expected_hash := expected_lower
    file_size := content.length }

/-- `verify_integrity` (verification/mod.rs lines 162-180): metadata or read
failures become errors; everything else is a normal result. -/
def verify_integrity (file : Option (List Nat)) (expected_hash : String) :
    Except VerificationError VerificationResult :=
  match file with
  | none => .error { kind := "io_error", message := "IO error" }
  | some content => .ok (verify_integrity_ok content expected_hash)

/-! ## Progress-reporting checksum (verification/mod.rs lines 102-151)

The read loop fills an 8MB buffer; for a regular file the reads are full
buffers followed by one final short read, i.e. exactly `chunksOf` of the
content.  The source computes the percentage in `f32`; the model uses exact
rationals (the gating decisions compared here are far from `f32`'s rounding
granularity).  The `report` flag is the source's `should_report_progress`,
re-checked each iteration as in the loop. -/

def BUFFER_SIZE : Nat := 8 * 1024 * 1024

def PROGRESS_THRESHOLD : Nat := 500 * 1024 * 1024

structure VerificationProgress where
  bytes_processed : Nat
  total_bytes : Nat
  percentage : ℚ
deriving DecidableEq, Repr

/-- The emission loop: walks the chunks, tracking bytes processed and the
percentage at the last emission, and emits whenever the cumulative
percentage has advanced at least 5 points. -/
def ccProgressLoop (total : Nat) (report : Bool) :
    List (List Nat) → Nat → ℚ → List VerificationProgress
  | [], _, _ => []
  | c :: rest, bytes_processed, last_percentage =>
      let bp := bytes_processed + c.length
      if report then
        let percentage : ℚ := (bp : ℚ) / (total : ℚ) * 100
        if 5 ≤ percentage - last_percentage then
          ⟨bp, total, percentage⟩ :: ccProgressLoop total report rest bp percentage
        else
          ccProgressLoop total report rest bp last_percentage
      else
        ccProgressLoop total report rest bp last_percentage

/-- Successive emissions advance the percentage by at least 5 points,
starting from the percentage recorded at the previous emission. -/
def GatedFrom (last : ℚ) : List VerificationProgress → Prop
  | [] => True
  | e :: rest => 5 ≤ e.percentage - last ∧ GatedFrom e.percentage rest

/-- `compute_checksum_with_progress`: the hash of the concatenated chunks
(the single hasher is updated with each chunk in order), plus the emitted
progress snapshots.  Progress is reported only when
`total_bytes > 500 * 1024 * 1024` (strict, as in the source). -/
def compute_checksum_with_progress (content : List Nat) :
    String × List VerificationProgress :=
  let total_bytes := content.length
  let chunks := chunksOf (BUFFER_SIZE - 1) content
  let should_report : Bool := decide (PROGRESS_THRESHOLD < total_bytes)
  (sha256hex chunks.flatten, ccProgressLoop total_bytes should_report chunks 0 0)

/-- `verify_integrity_with_progress` (verification/mod.rs lines 183-202). -/
def verify_integrity_with_progress (file : Option (List Nat))
    (expected_hash : String) :
    Except VerificationError (VerificationResult × List VerificationProgress) :=
  match file with
  | none => .error { kind := "io_error", message := "IO error" }
  | some content =>
      let (computed_hash, progress) := compute_checksum_with_progress content
      let expected_lower := str_to_lowercase expected_hash
      .ok ({ verified := computed_hash == expected_lower
             computed_hash := computed_hash
             expected_hash := expected_lower
             file_size := content.length }, progress)

/-! ## The orchestrator's own verification path (downloads/manager.rs 32-102)

`verify_with_progress` takes the transfer's `total_bytes` as `file_size`;
below the 500MB threshold it delegates to `verify_integrity`, otherwise it
re-hashes the file in 8MB chunks itself (its wall-clock-gated progress
events do not affect the result and are not modelled). -/

def VERIFICATION_PROGRESS_THRESHOLD : Nat := 500 * 1024 * 1024

def verify_with_progress (content : List Nat) (expected_hash : String)
    (file_size : Nat) : VerificationResult :=
  if file_size < VERIFICATION_PROGRESS_THRESHOLD then
    verify_integrity_ok content expected_hash
  else
    let chunks := chunksOf (BUFFER_SIZE - 1) content
    let computed_hash := sha256hex chunks.flatten
    let expected_lower := str_to_lowercase expected_hash
    { verified := computed_hash == expected_lower
      computed_hash := computed_hash
      expected_hash := expected_lower
      file_size := file_size }

/-! ## Quarantine filename parsing (verification/commands.rs lines 155-181)

Filenames are modelled as character lists; the source indexes by byte, which
coincides with character positions on the ASCII filenames the quarantine
store produces (`{model_id}_{YYYYMMDD}_{HHMMSS}` plus extensions). -/

/-- Index of the last `'_'` in the list (Rust's `rfind`). -/
def rfindUnderscoreIdx (name : List Char) : Option Nat :=
  (name.reverse.findIdx? (· == '_')).map (fun i => name.length - 1 - i)

/-- Rust's `strip_suffix(".gguf").unwrap_or(filename)`. -/
def stripDotGguf (filename : List Char) : List Char :=
  if (".gguf".data).isSuffixOf filename then
    filename.take (filename.length - 5)
  else
    filename

/-- `parse_quarantine_filename`: split off the trailing two
underscore-delimited tokens as the timestamp. -/
def parse_quarantine_filename (filename : List Char) :
    Option (List Char × List Char) :=
  let name := stripDotGguf filename
  match rfindUnderscoreIdx name with
  | none => none
  | some last_underscore =>
      if name.length < last_underscore + 7 then none
      else
        let timestamp_start := (rfindUnderscoreIdx (name.take last_underscore)).getD 0
        if timestamp_start = 0 then
          some (name.take last_underscore, name.drop (last_underscore + 1))
        else
          some (name.take timestamp_start, name.drop (timestamp_start + 1))

/-! ## Download registry and orchestrator (downloads/state.rs, manager.rs)

The registry is an association list with hash-map semantics (unique keys);
`get` returns a copy, `remove` deletes the key.  The cancellation token and
the filesystem paths are not part of the record equality we reason about:
the token is modelled by explicit "signal set" effects on the operations. -/

inductive DownloadStatus
  | queued
  | downloading
  | paused
  | completed
  | failed
  | cancelled
deriving DecidableEq, Repr

structure Download where
  id : String
  model_id : String
  url : String
  tokenizer_url : String
  file_path : String
  part_path : String
  bytes_downloaded : Nat
  total_bytes : Nat
  status : DownloadStatus
  expected_hash : Option String
deriving DecidableEq, Repr

/-- Event payload sent to the frontend (`DownloadProgressEvent`). -/
structure DownloadProgressEvent where
  download_id : String
  model_id : String
  status : String
  bytes_downloaded : Nat
  total_bytes : Nat
  speed_bps : Nat
  eta_seconds : Nat
deriving DecidableEq, Repr

/-- The status string used in `to_progress_event` (state.rs lines 68-75). -/
def statusString : DownloadStatus → String
  | .queued => "queued"
  | .downloading => "downloading"
  | .paused => "paused"
  | .completed => "completed"
  | .failed => "failed"
  | .cancelled => "cancelled"

/-- `Download::to_progress_event` (state.rs lines 64-82). -/
def to_progress_event (d : Download) (speed_bps eta_seconds : Nat) :
    DownloadProgressEvent :=
  { download_id := d.id
    model_id := d.model_id
    status := statusString d.status
    bytes_downloaded := d.bytes_downloaded
    total_bytes := d.total_bytes
    speed_bps := speed_bps
    eta_seconds := eta_seconds }

/-- A concrete download record used to instantiate the registry claims. -/
def sampleDownload (id : String) (status : DownloadStatus) : Download :=
  { id := id
    model_id := "phi-3-mini"
    url := "https://example.com/model.gguf"
    tokenizer_url := "https://example.com/tokenizer.json"
    file_path := "models/phi-3-mini/model.gguf"
    part_path := "models/phi-3-mini/model.gguf.part"
    bytes_downloaded := 500000000
    total_bytes := 2500000000
    status := status
    expected_hash := some "abc123" }

def Registry := List (String × Download)

/-- `DownloadState::get_download`: a snapshot by id. -/
def get_download (reg : Registry) (download_id : String) : Option Download :=
  (List.find? (fun p => p.1 == download_id) reg).map (fun p => p.2)

/-- `DownloadState::remove_download`'s effect on the map (the removed value
is what `get_download` returned). -/
def remove_download (reg : Registry) (download_id : String) : Registry :=
  List.filter (fun p => !(p.1 == download_id)) reg

/-- `get_download_progress` (downloads/commands.rs lines 98-107): a query
outside the transfer loop reports zero speed and eta. -/
def get_download_progress (reg : Registry) (download_id : String) :
    Option DownloadProgressEvent :=
  (get_download reg download_id).map (fun d => to_progress_event d 0 0)

/-! ## Orchestrator operations (downloads/manager.rs)

`resume_download` and `cancel_download` are registry transitions with
explicit effect records; the spawned transfer in `resume` is modelled as the
recorded invocation of `start_download` with its arguments (the claims under
check are about which arguments that call receives). -/

/-- Arguments the resumed `start_download` call receives. -/
structure StartInvocation where
  model_id : String
  url : String
  tokenizer_url : String
  expected_hash : Option String
deriving DecidableEq, Repr

structure ResumeOutcome where
  registry : Registry
  result : Except String Unit
  started : Option StartInvocation

/-- `resume_download` (manager.rs lines 517-548): requires the record to
exist and to be Paused; removes the old record, then starts a fresh
download from the stored urls and hash. -/
def resume_download (reg : Registry) (download_id : String) : ResumeOutcome :=
  match get_download reg download_id with
  | none => { registry := reg, result := .error "Download not found", started := none }
  | some d =>
      if d.status ≠ DownloadStatus.paused then
        { registry := reg, result := .error "Download is not paused", started := none }
      else
        { registry := remove_download reg download_id
          result := .ok ()
          started := some
            { model_id := d.model_id
              url := d.url
              tokenizer_url := d.tokenizer_url
              expected_hash := d.expected_hash } }

structure CancelOutcome where
  registry : Registry
  result : Except String Unit
  signal_set : Bool
  delete_attempted : Bool
  event : Option DownloadProgressEvent

/-- `cancel_download` (manager.rs lines 551-586): removes the record, sets
the cancellation signal, best-effort deletes the part file (the deletion's
success `delete_ok` is never consulted — failure is logged and swallowed),
and emits a terminal "cancelled" event with the last known byte counts. -/
def cancel_download (reg : Registry) (download_id : String)
    (part_exists delete_ok : Bool) : CancelOutcome :=
  match get_download reg download_id with
  | none =>
      { registry := reg, result := .error "Download not found"
        signal_set := false, delete_attempted := false, event := none }
  | some d =>
      { registry := remove_download reg download_id
        result := .ok ()
        signal_set := true
        delete_attempted := part_exists
        event := some
          { download_id := download_id
            model_id := d.model_id
            status := "cancelled"
            bytes_downloaded := d.bytes_downloaded
            total_bytes := d.total_bytes
            speed_bps := 0
            eta_seconds := 0 } }

/-! ## Transfer finalization (downloads/manager.rs lines 377-498)

The tail of `download_file` after the stream is exhausted: optional
verification, quarantine on mismatch, rename on success.  Actions appear in
emission/filesystem order; the final path is created only by the
`renameToFinal` action.  Renames are modelled as succeeding (the claims
under check describe the behaviour on a completed write with a healthy
filesystem). -/

inductive FinalizeAction
  | emitStatus (status : String)
  | emitCorruptedDetail (expected actual : String)
  | renameToQuarantine
  | renameToFinal
deriving DecidableEq, Repr

/-- Finalization trace and success flag for a completed transfer whose part
file holds `content`. -/
def download_file_finalize (content : List Nat) (total_bytes : Nat)
    (expected_hash : Option String) : List FinalizeAction × Bool :=
  match expected_hash with
  | none => ([.renameToFinal, .emitStatus "completed"], true)
  | some hash =>
      let result := verify_with_progress content hash total_bytes
      if result.verified then
        ([.emitStatus "verifying", .renameToFinal, .emitStatus "verified"], true)
      else
        ([.emitStatus "verifying", .renameToQuarantine,
          .emitStatus "corrupted",
          .emitCorruptedDetail result.expected_hash result.computed_hash], false)

/-! ## Storage check (downloads/commands.rs lines 117-134) -/

structure StorageCheckResult where
  has_space : Bool
  available_mb : Nat
  required_mb : Nat
  shortfall_mb : Nat
deriving DecidableEq, Repr

/-- `check_storage_space`: sum available bytes over all mounted volumes,
convert to MB, and report the (saturating) shortfall. -/
def check_storage_space (disk_available_bytes : List Nat) (required_mb : Nat) :
    StorageCheckResult :=
  let available_bytes := disk_available_bytes.sum
  let available_mb := available_bytes / 1024 / 1024
  let has_space := required_mb ≤ available_mb
  { has_space := has_space
    available_mb := available_mb
    required_mb := required_mb
    shortfall_mb := if has_space then 0 else required_mb - available_mb }

/-! ## General lemmas -/

theorem chunksOfFuel_nil (k n : Nat) : chunksOfFuel k n ([] : List α) = [] := by
  cases n <;> rfl

/-- Unfolding one chunk from a positive fuel value. -/
theorem chunksOfFuel_cons (k n : Nat) (x : α) (xs : List α) :
    chunksOfFuel k (n + 1) (x :: xs) =
      ((x :: xs).take (k + 1)) :: chunksOfFuel k n ((x :: xs).drop (k + 1)) :=
  rfl

/-- Concatenating the chunks recovers the original list: the chunked read
loop feeds the hasher exactly the file's bytes. -/
theorem flatten_chunksOfFuel (k : Nat) :
    ∀ (n : Nat) (l : List α), l.length ≤ n → (chunksOfFuel k n l).flatten = l := by
  intro n
  induction n with
  | zero =>
    intro l hl
    have : l = [] := List.eq_nil_of_length_eq_zero (Nat.le_zero.mp hl)
    subst this
    simp [chunksOfFuel_nil]
  | succ n ih =>
    intro l hl
    cases l with
    | nil => simp [chunksOfFuel_nil]
    | cons x xs =>
      have hdrop : ((x :: xs).drop (k + 1)).length ≤ n := by
        simp only [List.length_drop, List.length_cons] at *
        omega
      rw [chunksOfFuel_cons k n x xs,
        List.flatten_cons, ih _ hdrop, List.take_append_drop]

theorem join_chunksOf (k : Nat) (l : List α) : (chunksOf k l).flatten = l :=
  flatten_chunksOfFuel k l.length l le_rfl

/-- A nonempty list has a nonempty chunk decomposition. -/
theorem chunksOf_ne_nil (k : Nat) (x : α) (xs : List α) :
    chunksOf k (x :: xs) ≠ [] := by
  simp [chunksOf, chunksOfFuel_cons]

/-- A character that is not a lowercase ASCII letter is fixed by `upperChar`. -/
theorem upperChar_eq_self (c : Char)
    (h : c ∉ ['a', 'b', 'c', 'd', 'e', 'f', 'g', 'h', 'i', 'j', 'k', 'l', 'm',
      'n', 'o', 'p', 'q', 'r', 's', 't', 'u', 'v', 'w', 'x', 'y', 'z']) :
    upperChar c = c := by
  simp only [List.mem_cons, List.not_mem_nil, or_false, not_or] at h
  obtain ⟨n1, n2, n3, n4, n5, n6, n7, n8, n9, n10, n11, n12, n13, n14, n15,
    n16, n17, n18, n19, n20, n21, n22, n23, n24, n25, n26⟩ := h
  rw [upperChar, if_neg n1, if_neg n2, if_neg n3, if_neg n4, if_neg n5,
    if_neg n6, if_neg n7, if_neg n8, if_neg n9, if_neg n10, if_neg n11,
    if_neg n12, if_neg n13, if_neg n14, if_neg n15, if_neg n16, if_neg n17,
    if_neg n18, if_neg n19, if_neg n20, if_neg n21, if_neg n22, if_neg n23,
    if_neg n24, if_neg n25, if_neg n26]

/-- A character that is not an uppercase ASCII letter is fixed by `lowerChar`. -/
theorem lowerChar_eq_self (c : Char)
    (h : c ∉ ['A', 'B', 'C', 'D', 'E', 'F', 'G', 'H', 'I', 'J', 'K', 'L', 'M',
      'N', 'O', 'P', 'Q', 'R', 'S', 'T', 'U', 'V', 'W', 'X', 'Y', 'Z']) :
    lowerChar c = c := by
  simp only [List.mem_cons, List.not_mem_nil, or_false, not_or] at h
  obtain ⟨n1, n2, n3, n4, n5, n6, n7, n8, n9, n10, n11, n12, n13, n14, n15,
    n16, n17, n18, n19, n20, n21, n22, n23, n24, n25, n26⟩ := h
  rw [lowerChar, if_neg n1, if_neg n2, if_neg n3, if_neg n4, if_neg n5,
    if_neg n6, if_neg n7, if_neg n8, if_neg n9, if_neg n10, if_neg n11,
    if_neg n12, if_neg n13, if_neg n14, if_neg n15, if_neg n16, if_neg n17,
    if_neg n18, if_neg n19, if_neg n20, if_neg n21, if_neg n22, if_neg n23,
    if_neg n24, if_neg n25, if_neg n26]

/-- Lowercasing after uppercasing is the same as lowercasing directly. -/
theorem lowerChar_upperChar (c : Char) : lowerChar (upperChar c) = lowerChar c := by
  by_cases h : c ∈ ['a', 'b', 'c', 'd', 'e', 'f', 'g', 'h', 'i', 'j', 'k',
    'l', 'm', 'n', 'o', 'p', 'q', 'r', 's', 't', 'u', 'v', 'w', 'x', 'y', 'z']
  · fin_cases h <;> decide
  · rw [upperChar_eq_self c h]

/-- Lowercasing is idempotent on characters. -/
theorem lowerChar_lowerChar (c : Char) : lowerChar (lowerChar c) = lowerChar c := by
  by_cases h : c ∈ ['A', 'B', 'C', 'D', 'E', 'F', 'G', 'H', 'I', 'J', 'K',
    'L', 'M', 'N', 'O', 'P', 'Q', 'R', 'S', 'T', 'U', 'V', 'W', 'X', 'Y', 'Z']
  · fin_cases h <;> decide
  · simp [lowerChar_eq_self c h]

theorem str_to_lowercase_upper (s : String) :
    str_to_lowercase (str_to_uppercase s) = str_to_lowercase s := by
  simp only [str_to_lowercase, str_to_uppercase, List.map_map]
  congr 1
  exact List.map_congr_left fun c _ => lowerChar_upperChar c

theorem str_to_lowercase_lower (s : String) :
    str_to_lowercase (str_to_lowercase s) = str_to_lowercase s := by
  simp only [str_to_lowercase, List.map_map]
  congr 1
  exact List.map_congr_left fun c _ => lowerChar_lowerChar c

/-- Removing a key makes a subsequent lookup absent. -/
theorem get_download_remove (reg : Registry) (download_id : String) :
    get_download (remove_download reg download_id) download_id = none := by
  unfold get_download remove_download
  simp

/-- The orchestrator's chunked hashing path computes the module's checksum. -/
theorem verify_with_progress_eq (content : List Nat) (expected_hash : String)
    (file_size : Nat) :
    (verify_with_progress content expected_hash file_size).verified =
        (verify_integrity_ok content expected_hash).verified ∧
      (verify_with_progress content expected_hash file_size).computed_hash =
        (verify_integrity_ok content expected_hash).computed_hash ∧
      (verify_with_progress content expected_hash file_size).expected_hash =
        (verify_integrity_ok content expected_hash).expected_hash := by
  unfold verify_with_progress
  split
  · exact ⟨rfl, rfl, rfl⟩
  · simp [verify_integrity_ok, compute_checksum, join_chunksOf]

/-- With reporting off, the loop emits nothing. -/
theorem ccProgressLoop_false (total : Nat) :
    ∀ (chunks : List (List Nat)) (bp : Nat) (last : ℚ),
      ccProgressLoop total false chunks bp last = [] := by
  intro chunks
  induction chunks with
  | nil => intro bp last; rfl
  | cons c rest ih =>
    intro bp last
    simp only [ccProgressLoop, Bool.false_eq_true, if_false]
    exact ih _ _

/-- Every emission advances the percentage by at least 5 points over the
previous one. -/
theorem ccProgressLoop_gated (total : Nat) :
    ∀ (chunks : List (List Nat)) (bp : Nat) (last : ℚ),
      GatedFrom last (ccProgressLoop total true chunks bp last) := by
  intro chunks
  induction chunks with
  | nil => intro bp last; trivial
  | cons c rest ih =>
    intro bp last
    simp only [ccProgressLoop, if_true]
    split
    · exact ⟨by assumption, ih _ _⟩
    · exact ih _ _

/-- Every emitted snapshot carries the file's total, a byte count bounded by
the bytes fed to the loop, and the exact percentage of its byte count. -/
theorem ccProgressLoop_fields (total : Nat) (report : Bool) :
    ∀ (chunks : List (List Nat)) (bp : Nat) (last : ℚ),
      ∀ e ∈ ccProgressLoop total report chunks bp last,
        e.total_bytes = total ∧
          e.bytes_processed ≤ bp + (chunks.map List.length).sum ∧
          e.percentage = (e.bytes_processed : ℚ) / (total : ℚ) * 100 := by
  intro chunks
  induction chunks with
  | nil => intro bp last e he; cases he
  | cons c rest ih =>
    intro bp last e he
    simp only [ccProgressLoop] at he
    by_cases hr : report = true
    · rw [if_pos hr] at he
      split at he
      · rcases List.mem_cons.mp he with rfl | hmem
        · refine ⟨rfl, ?_, rfl⟩
          simp only [List.map_cons, List.sum_cons]
          omega
        · have := ih (bp + c.length) _ e hmem
          refine ⟨this.1, ?_, this.2.2⟩
          have h2 := this.2.1
          simp only [List.map_cons, List.sum_cons]
          omega
      · have := ih (bp + c.length) _ e he
        refine ⟨this.1, ?_, this.2.2⟩
        have h2 := this.2.1
        simp only [List.map_cons, List.sum_cons]
        omega
    · rw [if_neg hr] at he
      have := ih (bp + c.length) _ e he
      refine ⟨this.1, ?_, this.2.2⟩
      have h2 := this.2.1
      simp only [List.map_cons, List.sum_cons]
      omega

/-- If the chunks cover the whole (positive) file and nothing was emitted
before, the loop emits at least once: the final chunk reaches 100%. -/
theorem ccProgressLoop_ne_nil (total : Nat) (htotal : 0 < total) :
    ∀ (chunks : List (List Nat)) (bp : Nat),
      chunks ≠ [] → bp + (chunks.map List.length).sum = total →
      ccProgressLoop total true chunks bp 0 ≠ [] := by
  intro chunks
  induction chunks with
  | nil => intro bp h; exact absurd rfl h
  | cons c rest ih =>
    intro bp _ hsum
    simp only [ccProgressLoop, if_true]
    split
    · exact List.cons_ne_nil _ _
    · rename_i hlt
      cases rest with
      | nil =>
        exfalso
        apply hlt
        simp only [List.map_cons, List.map_nil, List.sum_cons, List.sum_nil,
          Nat.add_zero] at hsum
        have hbp : ((bp + c.length : Nat) : ℚ) = (total : Nat) := by
          exact_mod_cast congrArg (Nat.cast : Nat → ℚ) hsum
        rw [hbp]
        have hne : ((total : Nat) : ℚ) ≠ 0 := by
          exact_mod_cast Nat.pos_iff_ne_zero.mp htotal
        rw [div_self hne]
        norm_num
      | cons c2 rest2 =>
        apply ih
        · exact List.cons_ne_nil _ _
        · simp only [List.map_cons, List.sum_cons] at hsum ⊢
          omega

/-- `findIdx?` over a list whose first match is the separator. -/
theorem findIdx?_underscore_append (a b : List Char) (ha : '_' ∉ a) :
    List.findIdx? (· == '_') (a ++ '_' :: b) = some a.length := by
  rw [List.findIdx?_append]
  have hnone : List.findIdx? (· == '_') a = none := by
    rw [List.findIdx?_eq_none_iff]
    intro x hx
    simp only [beq_eq_false_iff_ne, ne_eq]
    exact fun hEq => ha (hEq ▸ hx)
  rw [hnone]
  simp

/-- `findIdx?` misses when the underscore is absent. -/
theorem findIdx?_underscore_none (l : List Char) (h : '_' ∉ l) :
    List.findIdx? (· == '_') l = none := by
  rw [List.findIdx?_eq_none_iff]
  intro x hx
  simp only [beq_eq_false_iff_ne, ne_eq]
  exact fun hEq => h (hEq ▸ hx)

/-- The last underscore of `a ++ '_' :: b` with `b` underscore-free is the
separator. -/
theorem rfindUnderscoreIdx_append (a b : List Char) (hb : '_' ∉ b) :
    rfindUnderscoreIdx (a ++ '_' :: b) = some a.length := by
  unfold rfindUnderscoreIdx
  rw [show (a ++ '_' :: b).reverse = b.reverse ++ '_' :: a.reverse by simp]
  rw [findIdx?_underscore_append _ _ (by simpa using hb)]
  simp
  try omega

/-- No underscore anywhere: `rfind` fails. -/
theorem rfindUnderscoreIdx_none (l : List Char) (h : '_' ∉ l) :
    rfindUnderscoreIdx l = none := by
  unfold rfindUnderscoreIdx
  rw [findIdx?_underscore_none _ (by simpa using h)]
  rfl

/-- Stripping the literal `.gguf` suffix. -/
theorem stripDotGguf_append (xs : List Char) :
    stripDotGguf (xs ++ ".gguf".data) = xs := by
  unfold stripDotGguf
  rw [if_pos]
  · rw [List.length_append]
    have : (".gguf".data).length = 5 := rfl
    rw [this, Nat.add_sub_cancel, List.take_left]
  · exact List.isSuffixOf_iff_suffix.mpr ⟨xs, rfl⟩

/-- Parsing a well-formed quarantine filename `{id}_{t1}_{t2}.gguf` (the
timestamp tokens are underscore-free, the second at least six characters as
the `HHMMSS` field always is) recovers the artifact id and the two-token
timestamp, for ANY nonempty id — in particular ids containing underscores. -/
theorem parse_quarantine_append (id t1 t2 : List Char) (hid : id ≠ [])
    (h1 : '_' ∉ t1) (h2 : '_' ∉ t2) (hl2 : 6 ≤ t2.length) :
    parse_quarantine_filename ((id ++ '_' :: t1 ++ '_' :: t2) ++ ".gguf".data) =
      some (id, t1 ++ '_' :: t2) := by
  unfold parse_quarantine_filename
  simp only []
  rw [stripDotGguf_append]
  have hshape : id ++ '_' :: t1 ++ '_' :: t2 = (id ++ '_' :: t1) ++ '_' :: t2 := by
    simp
  rw [hshape, rfindUnderscoreIdx_append _ _ h2]
  simp only []
  have hguard : ¬ (((id ++ '_' :: t1) ++ '_' :: t2).length <
      (id ++ '_' :: t1).length + 7) := by
    simp only [List.length_append, List.length_cons]
    omega
  rw [if_neg hguard]
  have htake : ((id ++ '_' :: t1) ++ '_' :: t2).take (id ++ '_' :: t1).length =
      id ++ '_' :: t1 := List.take_left _ _
  rw [htake, rfindUnderscoreIdx_append _ _ h1]
  have hlen0 : ¬ (id.length = 0) := by
    intro h
    exact hid (List.eq_nil_of_length_eq_zero h)
  simp only [Option.getD_some]
  rw [if_neg hlen0]
  have hshape2 : (id ++ '_' :: t1) ++ '_' :: t2 =
      (id ++ ['_']) ++ (t1 ++ '_' :: t2) := by simp
  have htake2 : ((id ++ '_' :: t1) ++ '_' :: t2).take id.length = id := by
    rw [show (id ++ '_' :: t1) ++ '_' :: t2 = id ++ ('_' :: t1 ++ '_' :: t2) by simp]
    exact List.take_left _ _
  have hdrop : ((id ++ '_' :: t1) ++ '_' :: t2).drop (id.length + 1) =
      t1 ++ '_' :: t2 := by
    rw [hshape2]
    exact List.drop_left' (by simp)
  rw [htake2, hdrop]

/-- A filename without an underscore never parses. -/
theorem parse_quarantine_no_underscore (filename : List Char)
    (h : '_' ∉ filename) : parse_quarantine_filename filename = none := by
  unfold parse_quarantine_filename
  simp only []
  have hstrip : '_' ∉ stripDotGguf filename := by
    unfold stripDotGguf
    split
    · intro hmem
      exact h (List.mem_of_mem_take hmem)
    · exact h
  rw [rfindUnderscoreIdx_none _ hstrip]

/-- The digest's characters all come from the lowercase hex alphabet. -/
theorem sha256hex_chars_lower_hex (msg : List Nat) :
    ((sha256hex msg).data.all
      (fun c => decide (c ∈ "0123456789abcdef".data))) = true := by
  have hhex : ∀ n : Nat, n < 16 → hexDigit n ∈ "0123456789abcdef".data := by decide
  have hword : ∀ w : Nat, ∀ c ∈ wordHex w, c ∈ "0123456789abcdef".data := by
    intro w c hc
    simp only [wordHex, List.mem_map, List.mem_range] at hc
    obtain ⟨i, _, rfl⟩ := hc
    exact hhex _ (Nat.lt_succ_of_le (Nat.and_le_right))
  rw [List.all_eq_true]
  show ∀ c ∈ (sha256hex msg).data, decide (c ∈ "0123456789abcdef".data) = true
  have : ∀ (ws : List Nat) (c : Char),
      c ∈ ws.foldr (fun w acc => wordHex w ++ acc) [] →
      c ∈ "0123456789abcdef".data := by
    intro ws
    induction ws with
    | nil => intro c hc; cases hc
    | cons w rest ih =>
      intro c hc
      rcases List.mem_append.mp hc with h | h
      · exact hword w c h
      · exact ih c h
  intro c hc
  exact decide_eq_true (this (sha256words msg) c hc)

/-- The chunked verification path reports an unverified result whenever the
digest disagrees with the lowercased expected hash. -/
theorem verify_with_progress_verified_false (content : List Nat)
    (hash : String) (file_size : Nat)
    (h : compute_checksum content ≠ str_to_lowercase hash) :
    (verify_with_progress content hash file_size).verified = false := by
  rw [(verify_with_progress_eq content hash file_size).1]
  simp only [verify_integrity_ok]
  exact beq_eq_false_iff_ne.mpr h

/-! ## Claims -/

/-- C2: for every readable file and expected hash, `verify_integrity`
returns a normal (non-error) result whose `verified` flag is true exactly
when the computed lowercase digest equals the lowercased expected hash and
false exactly when it differs (a mismatch is not an error), whose
`expected_hash` field is the lowercased input and whose `computed_hash` is
the file's checksum; verifying against the uppercased and the lowercased
hash yields the same `verified` flag, and only unreadable files produce
errors. -/
theorem C2_verify_integrity_contract (content : List Nat) (expected_hash : String) :
    verify_integrity (some content) expected_hash =
        Except.ok (verify_integrity_ok content expected_hash) ∧
      ((verify_integrity_ok content expected_hash).verified = true ↔
        compute_checksum content = str_to_lowercase expected_hash) ∧
      ((verify_integrity_ok content expected_hash).verified = false ↔
        compute_checksum content ≠ str_to_lowercase expected_hash) ∧
      (verify_integrity_ok content expected_hash).expected_hash =
        str_to_lowercase expected_hash ∧
      (verify_integrity_ok content expected_hash).computed_hash =
        compute_checksum content ∧
      (verify_integrity_ok content (str_to_uppercase expected_hash)).verified =
        (verify_integrity_ok content (str_to_lowercase expected_hash)).verified ∧
      verify_integrity none expected_hash =
        Except.error { kind := "io_error", message := "IO error" } := by
  refine ⟨rfl, ?_, ?_, rfl, rfl, ?_, rfl⟩
  · simp only [verify_integrity_ok]
    exact beq_iff_eq
  · simp only [verify_integrity_ok]
    exact beq_eq_false_iff_ne
  · simp only [verify_integrity_ok, str_to_lowercase_upper, str_to_lowercase_lower]

/-- C7: `compute_checksum` returns the lowercase hexadecimal SHA-256 digest:
it maps the empty file to the literal digest of the empty string, the
four-byte file "test" to the literal known digest of "test", and every
output character is a lowercase hex digit. -/
theorem C7_compute_checksum_vectors :
    compute_checksum [] =
        "e3b0c44298fc1c149afbf4c8996fb92427ae41e4649b934ca495991b7852b855" ∧
      compute_checksum (asciiBytes "test") =
        "9f86d081884c7d659a2feaa0c55ad015a3bf4f1b2b0b822cd15d6c15b0f00a08" ∧
      ∀ content : List Nat,
        ((compute_checksum content).data.all
          (fun c => decide (c ∈ "0123456789abcdef".data))) = true := by
  refine ⟨by decide, by decide, ?_⟩
  intro content
  exact sha256hex_chars_lower_hex content

/-- C8: `check_storage_space` reports `has_space` exactly when the summed
available megabytes reach the requirement, and the shortfall is the
truncated difference `max 0 (required − available)`: zero whenever there is
space, strictly positive whenever there is not. -/
theorem C8_check_storage (disks : List Nat) (required_mb : Nat) :
    ((check_storage_space disks required_mb).has_space = true ↔
        required_mb ≤ disks.sum / 1024 / 1024) ∧
      (check_storage_space disks required_mb).available_mb =
        disks.sum / 1024 / 1024 ∧
      (check_storage_space disks required_mb).required_mb = required_mb ∧
      ((check_storage_space disks required_mb).shortfall_mb : ℤ) =
        max 0 ((required_mb : ℤ) -
          ((check_storage_space disks required_mb).available_mb : ℤ)) ∧
      ((check_storage_space disks required_mb).has_space = true →
        (check_storage_space disks required_mb).shortfall_mb = 0) ∧
      ((check_storage_space disks required_mb).has_space = false →
        (check_storage_space disks required_mb).available_mb < required_mb →
        0 < (check_storage_space disks required_mb).shortfall_mb) := by
  by_cases h : required_mb ≤ disks.sum / 1024 / 1024
  · have hr : check_storage_space disks required_mb =
        { has_space := true, available_mb := disks.sum / 1024 / 1024,
          required_mb := required_mb, shortfall_mb := 0 } := by
      simp [check_storage_space, h]
    rw [hr]
    refine ⟨by simp [h], rfl, rfl, ?_, fun _ => rfl, by simp⟩
    simp only []
    omega
  · have hr : check_storage_space disks required_mb =
        { has_space := false, available_mb := disks.sum / 1024 / 1024,
          required_mb := required_mb,
          shortfall_mb := required_mb - disks.sum / 1024 / 1024 } := by
      simp [check_storage_space, h]
    rw [hr]
    refine ⟨by simp [h], rfl, rfl, ?_, by simp, fun _ hlt => ?_⟩
    · simp only []
      omega
    · simp only [] at hlt ⊢
      omega

/-- C8 witness: on a volume with 2MB available, requiring 1MB succeeds with
no shortfall, and requiring 5MB fails with a positive shortfall. -/
theorem C8_check_storage_witness :
    (check_storage_space [2097152] 1).has_space = true ∧
      (check_storage_space [2097152] 1).shortfall_mb = 0 ∧
      (check_storage_space [2097152] 5).has_space = false ∧
      (check_storage_space [2097152] 5).available_mb < 5 ∧
      0 < (check_storage_space [2097152] 5).shortfall_mb :=
  ⟨by decide,
   (C8_check_storage [2097152] 1).2.2.2.2.1 (by decide),
   by decide,
   by decide,
   (C8_check_storage [2097152] 5).2.2.2.2.2 (by decide) (by decide)⟩

/-- C9: the registry status type is the closed six-value enumeration
Queued/Downloading/Paused/Completed/Failed/Cancelled, so registry records
never carry a Verifying, Verified or Corrupted status; those three outcomes
appear only as free-form strings in emitted progress events, never as a
status a registry record serializes to. -/
theorem C9_status_closed :
    (∀ s : DownloadStatus, s = .queued ∨ s = .downloading ∨ s = .paused ∨
        s = .completed ∨ s = .failed ∨ s = .cancelled) ∧
      (∀ s : DownloadStatus, statusString s ≠ "verifying" ∧
        statusString s ≠ "verified" ∧ statusString s ≠ "corrupted") ∧
      FinalizeAction.emitStatus "verifying" ∈
        (download_file_finalize [] 0 (some "00")).1 ∧
      FinalizeAction.emitStatus "corrupted" ∈
        (download_file_finalize [] 0 (some "00")).1 ∧
      FinalizeAction.emitStatus "verified" ∈
        (download_file_finalize [] 0 (some
          "e3b0c44298fc1c149afbf4c8996fb92427ae41e4649b934ca495991b7852b855")).1 := by
  refine ⟨?_, ?_, by decide, by decide, by decide⟩
  · intro s
    cases s
    · exact Or.inl rfl
    · exact Or.inr (Or.inl rfl)
    · exact Or.inr (Or.inr (Or.inl rfl))
    · exact Or.inr (Or.inr (Or.inr (Or.inl rfl)))
    · exact Or.inr (Or.inr (Or.inr (Or.inr (Or.inl rfl))))
    · exact Or.inr (Or.inr (Or.inr (Or.inr (Or.inr rfl))))
  · intro s
    cases s <;> exact ⟨by decide, by decide, by decide⟩

/-- C10: the orchestrator's own chunked hashing path
(`verify_with_progress`) and the verification module's `verify_integrity`
agree on every readable file and expected hash: same `verified` flag, same
computed lowercase digest, same lowercased expected hash. -/
theorem C10_verify_refinement (content : List Nat) (expected_hash : String)
    (file_size : Nat) :
    verify_integrity (some content) expected_hash =
        Except.ok (verify_integrity_ok content expected_hash) ∧
      (verify_with_progress content expected_hash file_size).verified =
        (verify_integrity_ok content expected_hash).verified ∧
      (verify_with_progress content expected_hash file_size).computed_hash =
        (verify_integrity_ok content expected_hash).computed_hash ∧
      (verify_with_progress content expected_hash file_size).expected_hash =
        (verify_integrity_ok content expected_hash).expected_hash :=
  ⟨rfl, verify_with_progress_eq content expected_hash file_size⟩

/-- C1: on a checksum mismatch (computed digest differs from the lowercased
expected hash), finalization terminates with failure, moves the part file to
quarantine, publishes exactly one "corrupted" terminal event, and never
renames the part file to the final path — the final path is not created. -/
theorem C1_mismatch_quarantine (content : List Nat) (total_bytes : Nat)
    (hash : String)
    (hmismatch : compute_checksum content ≠ str_to_lowercase hash) :
    (download_file_finalize content total_bytes (some hash)).2 = false ∧
      ((download_file_finalize content total_bytes (some hash)).1.count
        (FinalizeAction.emitStatus "corrupted")) = 1 ∧
      FinalizeAction.renameToQuarantine ∈
        (download_file_finalize content total_bytes (some hash)).1 ∧
      FinalizeAction.renameToFinal ∉
        (download_file_finalize content total_bytes (some hash)).1 := by
  have hv := verify_with_progress_verified_false content hash total_bytes hmismatch
  unfold download_file_finalize
  simp only []
  rw [if_neg (by simp [hv])]
  refine ⟨rfl, ?_, by simp, by simp⟩
  simp [List.count_cons]

/-- C1 witness: the empty file against the hash "00". -/
theorem C1_mismatch_quarantine_witness :
    compute_checksum [] ≠ str_to_lowercase "00" ∧
      ((download_file_finalize [] 0 (some "00")).2 = false ∧
        ((download_file_finalize [] 0 (some "00")).1.count
          (FinalizeAction.emitStatus "corrupted")) = 1 ∧
        FinalizeAction.renameToQuarantine ∈
          (download_file_finalize [] 0 (some "00")).1 ∧
        FinalizeAction.renameToFinal ∉
          (download_file_finalize [] 0 (some "00")).1) :=
  ⟨by decide, C1_mismatch_quarantine [] 0 "00" (by decide)⟩

/-- C3 (amended): `compute_checksum_with_progress` hashes identically to
`compute_checksum`; for files strictly larger than the 500MB threshold it
emits at least one snapshot, consecutive emissions advance the percentage by
at least 5 points, and each snapshot carries the file's total bytes, a byte
count within the file, and the exact percentage of its byte count; for files
at or below the threshold it emits nothing. -/
theorem C3_progress_gating (content : List Nat) :
    (compute_checksum_with_progress content).1 = compute_checksum content ∧
      (content.length ≤ PROGRESS_THRESHOLD →
        (compute_checksum_with_progress content).2 = []) ∧
      (PROGRESS_THRESHOLD < content.length →
        (compute_checksum_with_progress content).2 ≠ [] ∧
        GatedFrom 0 (compute_checksum_with_progress content).2 ∧
        ∀ e ∈ (compute_checksum_with_progress content).2,
          e.total_bytes = content.length ∧
          e.bytes_processed ≤ content.length ∧
          e.percentage = (e.bytes_processed : ℚ) / (content.length : ℚ) * 100) := by
  have hsum : ((chunksOf (BUFFER_SIZE - 1) content).map List.length).sum =
      content.length := by
    rw [← List.length_flatten, join_chunksOf]
  refine ⟨?_, ?_, ?_⟩
  · unfold compute_checksum_with_progress
    simp only []
    rw [join_chunksOf]
    rfl
  · intro hle
    unfold compute_checksum_with_progress
    simp only []
    rw [decide_eq_false (by omega), ccProgressLoop_false]
  · intro hgt
    have hd : decide (PROGRESS_THRESHOLD < content.length) = true :=
      decide_eq_true hgt
    have hpos : 0 < content.length := lt_of_le_of_lt (Nat.zero_le _) hgt
    unfold compute_checksum_with_progress
    simp only []
    rw [hd]
    refine ⟨?_, ccProgressLoop_gated _ _ _ _, ?_⟩
    · apply ccProgressLoop_ne_nil _ hpos
      · cases hc : content with
        | nil => rw [hc] at hgt; simp [PROGRESS_THRESHOLD] at hgt
        | cons x xs => exact chunksOf_ne_nil _ _ _
      · rw [hsum]
        omega
    · intro e he
      have hf := ccProgressLoop_fields content.length true _ _ _ e he
      refine ⟨hf.1, ?_, hf.2.2⟩
      have := hf.2.1
      rw [hsum] at this
      omega

/-- C3 counterexample: a file of exactly 500MB — at the claim's "at or
above" threshold — produces no progress emissions at all, because the
source gates on `total_bytes > 500 * 1024 * 1024` strictly. -/
theorem C3_at_threshold_counterexample :
    (List.replicate (500 * 1024 * 1024) 0).length = 500 * 1024 * 1024 ∧
      (compute_checksum_with_progress
        (List.replicate (500 * 1024 * 1024) 0)).2 = [] := by
  refine ⟨List.length_replicate _ _, ?_⟩
  unfold compute_checksum_with_progress
  simp only [List.length_replicate]
  rw [decide_eq_false (by norm_num [PROGRESS_THRESHOLD]), ccProgressLoop_false]

/-- C3 witness: one byte over the threshold emits gated progress; the empty
file emits none. -/
theorem C3_progress_gating_witness :
    (PROGRESS_THRESHOLD < (List.replicate (PROGRESS_THRESHOLD + 1) 0).length ∧
      ((compute_checksum_with_progress
          (List.replicate (PROGRESS_THRESHOLD + 1) 0)).2 ≠ [] ∧
        GatedFrom 0 (compute_checksum_with_progress
          (List.replicate (PROGRESS_THRESHOLD + 1) 0)).2 ∧
        ∀ e ∈ (compute_checksum_with_progress
            (List.replicate (PROGRESS_THRESHOLD + 1) 0)).2,
          e.total_bytes = (List.replicate (PROGRESS_THRESHOLD + 1) (0 : Nat)).length ∧
          e.bytes_processed ≤ (List.replicate (PROGRESS_THRESHOLD + 1) (0 : Nat)).length ∧
          e.percentage = (e.bytes_processed : ℚ) /
            (((List.replicate (PROGRESS_THRESHOLD + 1) (0 : Nat)).length : Nat) : ℚ) * 100)) ∧
    (([] : List Nat).length ≤ PROGRESS_THRESHOLD ∧
      (compute_checksum_with_progress ([] : List Nat)).2 = []) :=
  ⟨⟨by simp, (C3_progress_gating _).2.2 (by simp)⟩,
   ⟨by simp, (C3_progress_gating []).2.1 (by simp)⟩⟩

/-- C4: quarantine filename parsing takes the trailing two
underscore-delimited tokens as the timestamp and everything before them as
the artifact id — on the concrete example `phi-3-mini_20251229_103000.gguf`,
on every well-formed name whose artifact id itself contains underscores (or
not), and a filename with no underscore yields no match. -/
theorem C4_parse_quarantine_contract (id t1 t2 name : List Char)
    (hid : id ≠ []) (h1 : '_' ∉ t1) (h2 : '_' ∉ t2) (hl2 : 6 ≤ t2.length)
    (hname : '_' ∉ name) :
    parse_quarantine_filename ("phi-3-mini_20251229_103000.gguf".data) =
        some ("phi-3-mini".data, "20251229_103000".data) ∧
      parse_quarantine_filename ("my_model_name_20251229_103000.gguf".data) =
        some ("my_model_name".data, "20251229_103000".data) ∧
      parse_quarantine_filename
          ((id ++ '_' :: t1 ++ '_' :: t2) ++ ".gguf".data) =
        some (id, t1 ++ '_' :: t2) ∧
      parse_quarantine_filename name = none :=
  ⟨by decide, by decide, parse_quarantine_append id t1 t2 hid h1 h2 hl2,
   parse_quarantine_no_underscore name hname⟩

/-- C4 witness: an underscored artifact id with a standard timestamp, and an
underscore-free filename. -/
theorem C4_parse_quarantine_witness :
    parse_quarantine_filename
        (("my_model".data ++ '_' :: "20251229".data ++ '_' :: "103000".data) ++
          ".gguf".data) =
      some ("my_model".data, "20251229".data ++ '_' :: "103000".data) :=
  (C4_parse_quarantine_contract "my_model".data "20251229".data "103000".data
    "modelname.gguf".data (by decide) (by decide) (by decide) (by decide)
    (by decide)).2.2.1

/-- C5: `resume_download` on a registered download that is not Paused fails
with the distinct "not paused" error, leaves the registry unchanged and does
not start a new transfer; on a Paused download it removes the old record and
calls `start_download` again with the stored urls and stored expected
hash. -/
theorem C5_resume_requires_paused (reg : Registry) (download_id : String)
    (d : Download) (hreg : get_download reg download_id = some d) :
    (d.status ≠ DownloadStatus.paused →
      resume_download reg download_id =
        { registry := reg, result := Except.error "Download is not paused",
          started := none }) ∧
    (d.status = DownloadStatus.paused →
      (resume_download reg download_id).result = Except.ok () ∧
      (resume_download reg download_id).started =
        some { model_id := d.model_id, url := d.url,
               tokenizer_url := d.tokenizer_url,
               expected_hash := d.expected_hash } ∧
      (resume_download reg download_id).registry =
        remove_download reg download_id ∧
      get_download (resume_download reg download_id).registry download_id =
        none) := by
  unfold resume_download
  rw [hreg]
  simp only []
  constructor
  · intro hne
    rw [if_pos hne]
  · intro heq
    rw [if_neg (by simp [heq])]
    exact ⟨rfl, rfl, rfl, get_download_remove _ _⟩

/-- C5 witness: a downloading record is refused with the "not paused" error
and nothing is started; a paused record is removed and restarted with its
stored urls and hash. -/
theorem C5_resume_witness :
    (resume_download [("a", sampleDownload "a" DownloadStatus.downloading)]
        "a").result = Except.error "Download is not paused" ∧
      (resume_download [("b", sampleDownload "b" DownloadStatus.paused)]
          "b").started =
        some { model_id := "phi-3-mini", url := "https://example.com/model.gguf",
               tokenizer_url := "https://example.com/tokenizer.json",
               expected_hash := some "abc123" } ∧
      get_download (resume_download
          [("b", sampleDownload "b" DownloadStatus.paused)] "b").registry "b" =
        none := by
  refine ⟨?_, ?_, ?_⟩
  · exact congrArg ResumeOutcome.result
      ((C5_resume_requires_paused
        [("a", sampleDownload "a" DownloadStatus.downloading)] "a"
        (sampleDownload "a" DownloadStatus.downloading) (by decide)).1
        (by decide))
  · exact ((C5_resume_requires_paused
      [("b", sampleDownload "b" DownloadStatus.paused)] "b"
      (sampleDownload "b" DownloadStatus.paused) (by decide)).2 (by decide)).2.1
  · exact ((C5_resume_requires_paused
      [("b", sampleDownload "b" DownloadStatus.paused)] "b"
      (sampleDownload "b" DownloadStatus.paused) (by decide)).2 (by decide)).2.2.2

/-- C6: `cancel_download` on a registered id succeeds, removes the record
(a subsequent query returns absent), sets the cancellation signal, attempts
the best-effort part-file deletion exactly when the part file exists — with
a deletion failure never affecting the outcome — and publishes one terminal
"cancelled" event carrying the last known byte counts. -/
theorem C6_cancel_contract (reg : Registry) (download_id : String)
    (d : Download) (part_exists delete_ok : Bool)
    (hreg : get_download reg download_id = some d) :
    (cancel_download reg download_id part_exists delete_ok).result =
        Except.ok () ∧
      (cancel_download reg download_id part_exists delete_ok).registry =
        remove_download reg download_id ∧
      get_download
        (cancel_download reg download_id part_exists delete_ok).registry
        download_id = none ∧
      get_download_progress
        (cancel_download reg download_id part_exists delete_ok).registry
        download_id = none ∧
      (cancel_download reg download_id part_exists delete_ok).signal_set =
        true ∧
      (cancel_download reg download_id part_exists delete_ok).delete_attempted =
        part_exists ∧
      (cancel_download reg download_id part_exists delete_ok).event =
        some { download_id := download_id, model_id := d.model_id,
               status := "cancelled", bytes_downloaded := d.bytes_downloaded,
               total_bytes := d.total_bytes, speed_bps := 0,
               eta_seconds := 0 } ∧
      cancel_download reg download_id part_exists true =
        cancel_download reg download_id part_exists false := by
  unfold cancel_download
  rw [hreg]
  refine ⟨rfl, rfl, get_download_remove _ _, ?_, rfl, rfl, rfl, rfl⟩
  show get_download_progress (remove_download reg download_id) download_id = none
  unfold get_download_progress
  rw [get_download_remove]
  rfl

/-- C6 witness: cancelling a registered download whose part file exists but
whose deletion fails still succeeds, and the id is gone afterwards. -/
theorem C6_cancel_witness :
    (cancel_download [("a", sampleDownload "a" DownloadStatus.downloading)]
        "a" true false).result = Except.ok () ∧
      get_download_progress
        (cancel_download [("a", sampleDownload "a" DownloadStatus.downloading)]
          "a" true false).registry "a" = none ∧
      (cancel_download [("a", sampleDownload "a" DownloadStatus.downloading)]
        "a" true false).event =
        some { download_id := "a", model_id := "phi-3-mini",
               status := "cancelled", bytes_downloaded := 500000000,
               total_bytes := 2500000000, speed_bps := 0, eta_seconds := 0 } := by
  refine ⟨?_, ?_, ?_⟩
  · exact (C6_cancel_contract
      [("a", sampleDownload "a" DownloadStatus.downloading)] "a"
      (sampleDownload "a" DownloadStatus.downloading) true false (by decide)).1
  · exact (C6_cancel_contract
      [("a", sampleDownload "a" DownloadStatus.downloading)] "a"
      (sampleDownload "a" DownloadStatus.downloading) true false
      (by decide)).2.2.2.1
  · exact (C6_cancel_contract
      [("a", sampleDownload "a" DownloadStatus.downloading)] "a"
      (sampleDownload "a" DownloadStatus.downloading) true false
      (by decide)).2.2.2.2.2.2.1

end Continuum
